import Mathlib

/-
  Verification of the reliability layer of the insurance-platform
  microservices: transactional outbox, idempotency manager, circuit
  breaker, retrying client, and rate limiter.

  Each definition is a shallow embedding of the corresponding Python
  function.  Timestamps from the monotonic / wall clocks are modelled as
  rationals (the Redis limiter truncates to whole seconds, modelled as
  integers).  Calls to external collaborators (DynamoDB, SNS, Redis, the
  json library) are modelled by passing their outcome - including the
  possibility of a raised exception, as `Except` - into the embedded
  function.
-/

-- A Python dict, as far as the reliability layer inspects it: an
-- association list.  Python truthiness of a dict is non-emptiness.
abbrev PyDict := List (String × String)

def pyTruthyDict (d : PyDict) : Bool := !d.isEmpty

/-
  CircuitBreaker, from gateway-bff/app/clients/service_client.py.

  `state` is the string field "CLOSED" / "OPEN" / "HALF_OPEN".
  `last_failure_time` is `None` initially, hence `Option`.  The guard
  `if self.last_failure_time and ...` uses Python truthiness, which is
  false both for `None` and for the float `0.0`; the embedding keeps that
  exactly.
-/

inductive BreakerState where
  | closed
  | opened
  | halfOpen
deriving DecidableEq, Repr

structure CircuitBreaker where
  failure_threshold : Nat
  recovery_timeout : Rat
  failure_count : Nat
  last_failure_time : Option Rat
  state : BreakerState
deriving DecidableEq, Repr

namespace CircuitBreaker

-- __init__(failure_threshold, recovery_timeout)
def init (failure_threshold : Nat) (recovery_timeout : Rat) : CircuitBreaker :=
  { failure_threshold := failure_threshold
    recovery_timeout := recovery_timeout
    failure_count := 0
    last_failure_time := none
    state := .closed }

-- Python truthiness of `self.last_failure_time` (None or 0.0 are falsy).
def truthyTime : Option Rat → Bool
  | none => false
  | some t => t != 0

-- can_execute(self); `now` is asyncio.get_event_loop().time().  The
-- OPEN branch mutates `state` to HALF_OPEN when it admits the trial,
-- so the embedding returns the updated breaker alongside the Bool.
def can_execute (cb : CircuitBreaker) (now : Rat) : Bool × CircuitBreaker :=
  match cb.state with
  | .closed => (true, cb)
  | .opened =>
      if truthyTime cb.last_failure_time ∧
          cb.recovery_timeout < now - (cb.last_failure_time.getD 0) then
        (true, { cb with state := .halfOpen })
      else
        (false, cb)
  | .halfOpen => (true, cb)

-- record_success(self)
def record_success (cb : CircuitBreaker) : CircuitBreaker :=
  { cb with failure_count := 0, state := .closed }

-- record_failure(self); `now` is the event-loop time recorded into
-- last_failure_time.
def record_failure (cb : CircuitBreaker) (now : Rat) : CircuitBreaker :=
  let cb' := { cb with
    failure_count := cb.failure_count + 1
    last_failure_time := some now }
  if cb'.failure_threshold ≤ cb'.failure_count then
    { cb' with state := .opened }
  else
    cb'

-- A sequence of record_failure calls (with no intervening success),
-- at the given timestamps.
def applyFailures (cb : CircuitBreaker) (ts : List Rat) : CircuitBreaker :=
  ts.foldl record_failure cb

theorem record_failure_threshold (cb : CircuitBreaker) (t : Rat) :
    (record_failure cb t).failure_threshold = cb.failure_threshold := by
  unfold record_failure
  dsimp only
  split <;> rfl

theorem record_failure_recovery (cb : CircuitBreaker) (t : Rat) :
    (record_failure cb t).recovery_timeout = cb.recovery_timeout := by
  unfold record_failure
  dsimp only
  split <;> rfl

theorem record_failure_count (cb : CircuitBreaker) (t : Rat) :
    (record_failure cb t).failure_count = cb.failure_count + 1 := by
  unfold record_failure
  dsimp only
  split <;> rfl

theorem record_failure_last (cb : CircuitBreaker) (t : Rat) :
    (record_failure cb t).last_failure_time = some t := by
  unfold record_failure
  dsimp only
  split <;> rfl

theorem record_failure_opens (cb : CircuitBreaker) (t : Rat)
    (h : cb.failure_threshold ≤ cb.failure_count + 1) :
    (record_failure cb t).state = .opened := by
  unfold record_failure
  dsimp only
  rw [if_pos h]

theorem applyFailures_threshold (cb : CircuitBreaker) (ts : List Rat) :
    (applyFailures cb ts).failure_threshold = cb.failure_threshold := by
  induction ts generalizing cb with
  | nil => rfl
  | cons t ts ih =>
      simp only [applyFailures, List.foldl_cons] at *
      rw [ih, record_failure_threshold]

theorem applyFailures_recovery (cb : CircuitBreaker) (ts : List Rat) :
    (applyFailures cb ts).recovery_timeout = cb.recovery_timeout := by
  induction ts generalizing cb with
  | nil => rfl
  | cons t ts ih =>
      simp only [applyFailures, List.foldl_cons] at *
      rw [ih, record_failure_recovery]

theorem applyFailures_count (cb : CircuitBreaker) (ts : List Rat) :
    (applyFailures cb ts).failure_count = cb.failure_count + ts.length := by
  induction ts generalizing cb with
  | nil => rfl
  | cons t ts ih =>
      simp only [applyFailures, List.foldl_cons, List.length_cons] at *
      rw [ih, record_failure_count]
      omega

theorem applyFailures_last (cb : CircuitBreaker) (ts : List Rat) (tl : Rat)
    (h : ts.getLast? = some tl) :
    (applyFailures cb ts).last_failure_time = some tl := by
  induction ts generalizing cb with
  | nil => simp at h
  | cons t ts ih =>
      cases ts with
      | nil =>
          have ht : t = tl := by simpa using h
          subst ht
          simpa [applyFailures] using record_failure_last cb t
      | cons u us =>
          rw [List.getLast?_cons_cons] at h
          simpa [applyFailures, List.foldl_cons] using ih (record_failure cb t) h

theorem applyFailures_opens (cb : CircuitBreaker) (ts : List Rat)
    (hne : ts ≠ [])
    (h : cb.failure_threshold ≤ cb.failure_count + ts.length) :
    (applyFailures cb ts).state = .opened := by
  induction ts generalizing cb with
  | nil => exact absurd rfl hne
  | cons t ts ih =>
      cases ts with
      | nil =>
          simp only [List.length_cons, List.length_nil] at h
          simpa [applyFailures] using record_failure_opens cb t (by omega)
      | cons u us =>
          simp only [applyFailures, List.foldl_cons]
          have := ih (record_failure cb t) (by simp)
            (by rw [record_failure_threshold, record_failure_count]
                simp only [List.length_cons] at h ⊢
                omega)
          simpa [applyFailures] using this

end CircuitBreaker

/--
C2. For a CircuitBreaker with failure_threshold `f ≥ 1` and
recovery_timeout `r`, after `f` consecutive `record_failure` calls (at
timestamps `ts`, last one `tl`, nonzero so the Python truthiness guard on
`last_failure_time` passes) with no intervening success:
every `can_execute` call at a time `now` with `now - tl ≤ r` (in
particular every call made before `r` seconds have elapsed) returns
`false` and leaves the breaker unchanged, so repeated calls keep
returning `false`; once more than `r` seconds have elapsed, the next
call is allowed and transitions the breaker to HALF_OPEN; and a single
`record_success` in HALF_OPEN resets `failure_count` to 0 and returns
the state to CLOSED.
-/
theorem C2_breaker_open_until_recovery (f : Nat) (r : Rat) (ts : List Rat)
    (tl : Rat) (hf : 1 ≤ f) (hlen : ts.length = f)
    (hlast : ts.getLast? = some tl) (htl : tl ≠ 0) :
    (∀ now : Rat, now - tl ≤ r →
      CircuitBreaker.can_execute
        (CircuitBreaker.applyFailures (CircuitBreaker.init f r) ts) now =
      (false, CircuitBreaker.applyFailures (CircuitBreaker.init f r) ts)) ∧
    (∀ now : Rat, r < now - tl →
      (CircuitBreaker.can_execute
        (CircuitBreaker.applyFailures (CircuitBreaker.init f r) ts) now).1 = true ∧
      ((CircuitBreaker.can_execute
        (CircuitBreaker.applyFailures (CircuitBreaker.init f r) ts) now).2).state =
        .halfOpen ∧
      (CircuitBreaker.record_success
        (CircuitBreaker.can_execute
          (CircuitBreaker.applyFailures (CircuitBreaker.init f r) ts) now).2).failure_count
        = 0 ∧
      (CircuitBreaker.record_success
        (CircuitBreaker.can_execute
          (CircuitBreaker.applyFailures (CircuitBreaker.init f r) ts) now).2).state =
        .closed) := by
  have hne : ts ≠ [] := by
    intro h
    rw [h] at hlen
    simp at hlen
    omega
  set cb1 := CircuitBreaker.applyFailures (CircuitBreaker.init f r) ts with hcb1
  have hstate : cb1.state = .opened := by
    apply CircuitBreaker.applyFailures_opens _ _ hne
    simp [CircuitBreaker.init, hlen]
  have hlft : cb1.last_failure_time = some tl :=
    CircuitBreaker.applyFailures_last _ _ _ hlast
  have hrec : cb1.recovery_timeout = r :=
    CircuitBreaker.applyFailures_recovery _ _
  have htruthy : CircuitBreaker.truthyTime cb1.last_failure_time = true := by
    rw [hlft]
    simp [CircuitBreaker.truthyTime, htl]
  constructor
  · intro now hnow
    unfold CircuitBreaker.can_execute
    rw [hstate]
    rw [if_neg]
    intro ⟨_, hlt⟩
    rw [hrec, hlft] at hlt
    simp only [Option.getD_some] at hlt
    exact absurd hnow (not_le.mpr hlt)
  · intro now hnow
    have hexec : CircuitBreaker.can_execute cb1 now =
        (true, { cb1 with state := .halfOpen }) := by
      unfold CircuitBreaker.can_execute
      rw [hstate]
      rw [if_pos]
      constructor
      · rw [htruthy]
      · rw [hrec, hlft]
        simpa using hnow
    refine ⟨by rw [hexec], by rw [hexec], ?_, ?_⟩
    · rw [hexec]
      rfl
    · rw [hexec]
      rfl

/--
Witness for C2 at threshold 2, recovery timeout 10, failures at times 5
and 6: at time 16 (exactly 10 elapsed) the breaker still rejects; at
time 17 it admits the HalfOpen trial, and a success then closes it with
the counter reset.
-/
theorem C2_breaker_open_until_recovery_witness :
    (CircuitBreaker.can_execute
      (CircuitBreaker.applyFailures (CircuitBreaker.init 2 10) [5, 6]) 16).1 = false ∧
    (CircuitBreaker.can_execute
      (CircuitBreaker.applyFailures (CircuitBreaker.init 2 10) [5, 6]) 17).1 = true ∧
    (CircuitBreaker.record_success
      (CircuitBreaker.can_execute
        (CircuitBreaker.applyFailures (CircuitBreaker.init 2 10) [5, 6]) 17).2).state =
      .closed := by
  have h := C2_breaker_open_until_recovery 2 10 [5, 6] 6 (by norm_num) rfl rfl
    (by norm_num)
  refine ⟨?_, ?_, ?_⟩
  · rw [h.1 16 (by norm_num)]
  · exact (h.2 17 (by norm_num)).1
  · exact (h.2 17 (by norm_num)).2.2.2

/-
  ResilientServiceClient._make_request_with_retry, from
  gateway-bff/app/clients/service_client.py.

  The i-th HTTP attempt's outcome is given by the oracle `os i`
  (`.ok a` = the request returned normally, `.error e` = it raised).
  `tNow` is the event-loop time at the single can_execute call, `tFail`
  the time recorded by record_failure on exhaustion.  Besides result and
  final breaker, the embedding emits a trace of the observable actions:
  breaker consultations, downstream attempts, backoff sleeps, and the
  breaker bookkeeping calls.
-/

inductive ClientAction where
  | check              -- circuit_breaker.can_execute() consulted
  | attempt (i : Nat)  -- downstream HTTP attempt number i
  | sleep (d : Nat)    -- await asyncio.sleep(d) backoff
  | recSuccess         -- circuit_breaker.record_success()
  | recFailure         -- circuit_breaker.record_failure()
deriving DecidableEq, Repr

inductive CallError (ε : Type) where
  | breakerOpen        -- raise Exception("Circuit breaker is OPEN")
  | httpError (e : ε)  -- the attempt's own exception, re-raised
deriving DecidableEq, Repr

namespace ResilientServiceClient

-- The `for attempt in range(max_retries + 1)` loop, at attempt index i
-- with `remaining` further attempts budgeted (remaining = max_retries - i).
-- On success: record_success and return.  On exception: if budget
-- remains, sleep 2^i and continue; else record_failure and re-raise.
def attemptLoop {ε α : Type} (os : Nat → Except ε α) (tFail : Rat)
    (cb : CircuitBreaker) (i : Nat) :
    Nat → Except ε α × CircuitBreaker × List ClientAction
  | 0 =>
    match os i with
    | .ok a => (.ok a, cb.record_success, [.attempt i, .recSuccess])
    | .error e => (.error e, cb.record_failure tFail, [.attempt i, .recFailure])
  | r + 1 =>
    match os i with
    | .ok a => (.ok a, cb.record_success, [.attempt i, .recSuccess])
    | .error _ =>
      let rest := attemptLoop os tFail cb (i + 1) r
      (rest.1, rest.2.1, .attempt i :: .sleep (2 ^ i) :: rest.2.2)

-- _make_request_with_retry: one can_execute gate before the loop; if it
-- returns False, raise the breaker-open error immediately.
def make_request_with_retry {ε α : Type} (os : Nat → Except ε α)
    (max_retries : Nat) (cb : CircuitBreaker) (tNow tFail : Rat) :
    Except (CallError ε) α × CircuitBreaker × List ClientAction :=
  let gate := cb.can_execute tNow
  if gate.1 then
    let run := attemptLoop os tFail gate.2 0 max_retries
    (run.1.mapError .httpError, run.2.1, .check :: run.2.2)
  else
    (.error .breakerOpen, gate.2, [.check])

def countChecks (tr : List ClientAction) : Nat :=
  tr.countP (fun a => match a with | .check => true | _ => false)

def countAttempts (tr : List ClientAction) : Nat :=
  tr.countP (fun a => match a with | .attempt _ => true | _ => false)

def countSleeps (tr : List ClientAction) : Nat :=
  tr.countP (fun a => match a with | .sleep _ => true | _ => false)

theorem attemptLoop_no_check {ε α : Type} (os : Nat → Except ε α)
    (tFail : Rat) (cb : CircuitBreaker) (i r : Nat) :
    countChecks (attemptLoop os tFail cb i r).2.2 = 0 := by
  induction r generalizing i cb with
  | zero =>
      unfold attemptLoop
      cases os i <;> simp [countChecks, List.countP_cons]
  | succ r ih =>
      unfold attemptLoop
      cases os i with
      | ok a => simp [countChecks, List.countP_cons]
      | error e =>
          dsimp only
          simp only [countChecks, List.countP_cons] at *
          rw [ih]
          simp

-- The trace produced when every attempt from index i on fails, with r
-- further attempts budgeted.
def failTrace : Nat → Nat → List ClientAction
  | i, 0 => [.attempt i, .recFailure]
  | i, r + 1 => .attempt i :: .sleep (2 ^ i) :: failTrace (i + 1) r

theorem attemptLoop_all_fail {ε α : Type} (err : Nat → ε) (tFail : Rat)
    (cb : CircuitBreaker) (r i : Nat) :
    attemptLoop (α := α) (fun j => .error (err j)) tFail cb i r =
      (.error (err (i + r)), cb.record_failure tFail, failTrace i r) := by
  induction r generalizing i with
  | zero => simp [attemptLoop, failTrace]
  | succ r ih =>
      unfold attemptLoop
      dsimp only
      rw [ih (i + 1)]
      simp only [failTrace]
      rw [show i + 1 + r = i + (r + 1) from by omega]

theorem failTrace_attempts (i r : Nat) :
    countAttempts (failTrace i r) = r + 1 := by
  induction r generalizing i with
  | zero => simp [failTrace, countAttempts, List.countP_cons]
  | succ r ih =>
      simp only [failTrace, countAttempts, List.countP_cons] at *
      rw [ih]
      simp

theorem failTrace_sleeps (i r : Nat) :
    countSleeps (failTrace i r) = r := by
  induction r generalizing i with
  | zero => simp [failTrace, countSleeps, List.countP_cons]
  | succ r ih =>
      simp only [failTrace, countSleeps, List.countP_cons] at *
      rw [ih]
      simp

-- Concrete attempt oracles for the counterexamples.
def osFailThenOk : Nat → Except Unit Unit :=
  fun i => if i = 0 then .error () else .ok ()

-- A malformed-request failure: the downstream answers 400 Bad Request
-- (raise_for_status raises httpx.HTTPStatusError, a non-retryable
-- failure class per the spec) on every attempt.
def osBadRequest : Nat → Except Nat Unit :=
  fun _ => .error 400

end ResilientServiceClient

/--
C5 counterexample. The claim says can_execute is consulted before each
individual attempt.  Concretely: breaker fresh (CLOSED), max_retries 3,
attempt 0 raises and attempt 1 succeeds.  The run makes two downstream
attempts but consults the breaker exactly once (only before the first
attempt), so "consulted before each individual attempt (not only before
the first)" is false.
-/
theorem C5_counterexample_single_gate :
    (ResilientServiceClient.make_request_with_retry
      ResilientServiceClient.osFailThenOk 3 (CircuitBreaker.init 5 60) 0 1).2.2 =
      [.check, .attempt 0, .sleep 1, .attempt 1, .recSuccess] ∧
    ResilientServiceClient.countChecks
      (ResilientServiceClient.make_request_with_retry
        ResilientServiceClient.osFailThenOk 3 (CircuitBreaker.init 5 60) 0 1).2.2 = 1 ∧
    ResilientServiceClient.countAttempts
      (ResilientServiceClient.make_request_with_retry
        ResilientServiceClient.osFailThenOk 3 (CircuitBreaker.init 5 60) 0 1).2.2 = 2 := by
  refine ⟨?_, ?_, ?_⟩ <;> rfl

/--
C5 amended. The circuit breaker's can_execute is consulted exactly once
per _make_request_with_retry execution, before the first attempt only;
whenever that single consultation returns false, the call fails
immediately with the breaker-open error, makes no downstream attempt
and consumes no retry budget.
-/
theorem C5_gate_once_before_first_attempt {ε α : Type} (os : Nat → Except ε α)
    (max_retries : Nat) (cb : CircuitBreaker) (tNow tFail : Rat) :
    ResilientServiceClient.countChecks
      (ResilientServiceClient.make_request_with_retry os max_retries cb tNow tFail).2.2
      = 1 ∧
    ((cb.can_execute tNow).1 = false →
      ResilientServiceClient.make_request_with_retry os max_retries cb tNow tFail =
        (.error .breakerOpen, (cb.can_execute tNow).2, [.check])) := by
  constructor
  · unfold ResilientServiceClient.make_request_with_retry
    dsimp only
    split
    · simp only [ResilientServiceClient.countChecks, List.countP_cons] at *
      have h := ResilientServiceClient.attemptLoop_no_check os tFail
        (cb.can_execute tNow).2 0 max_retries
      simp only [ResilientServiceClient.countChecks] at h
      rw [h]
      simp
    · rfl
  · intro hfalse
    unfold ResilientServiceClient.make_request_with_retry
    dsimp only
    rw [if_neg (by rw [hfalse]; exact Bool.false_ne_true)]

-- A breaker currently OPEN: threshold 5 reached, last failure at time 5.
def cbOpenAt5 : CircuitBreaker :=
  { failure_threshold := 5
    recovery_timeout := 60
    failure_count := 5
    last_failure_time := some 5
    state := .opened }

/--
Witness for C5 amended: with the breaker OPEN since time 5 (recovery
timeout 60), a call at time 6 is rejected up front: breaker-open error,
trace is just the single consultation, no attempt.
-/
theorem C5_gate_once_before_first_attempt_witness :
    (cbOpenAt5.can_execute 6).1 = false ∧
    ResilientServiceClient.make_request_with_retry
      (fun _ => (.ok () : Except Unit Unit)) 3 cbOpenAt5 6 7 =
      (.error .breakerOpen, (cbOpenAt5.can_execute 6).2, [.check]) := by
  have hfalse : (cbOpenAt5.can_execute 6).1 = false := by
    simp only [cbOpenAt5, CircuitBreaker.can_execute, CircuitBreaker.truthyTime]
    norm_num
  exact ⟨hfalse,
    (C5_gate_once_before_first_attempt (fun _ => (.ok () : Except Unit Unit))
      3 cbOpenAt5 6 7).2 hfalse⟩

/--
C6 counterexample. The claim says a non-retryable failure (e.g. a
malformed request) propagates immediately, consuming no retry budget,
not incrementing the breaker's failure counter, and with no backoff
sleep.  Concretely: every attempt raises the 400 Bad Request error,
max_retries 2, fresh breaker.  The run makes 3 attempts (full budget),
sleeps twice (backoff 1s then 2s), and the final breaker has
failure_count 1 - the non-retryable failure was retried, backed off,
and counted against the breaker.
-/
theorem C6_counterexample_bad_request_retried :
    ResilientServiceClient.make_request_with_retry
      ResilientServiceClient.osBadRequest 2 (CircuitBreaker.init 5 60) 0 9 =
      (.error (.httpError 400),
       { failure_threshold := 5, recovery_timeout := 60, failure_count := 1,
         last_failure_time := some 9, state := .closed },
       [.check, .attempt 0, .sleep 1, .attempt 1, .sleep 2, .attempt 2,
        .recFailure]) ∧
    ResilientServiceClient.countAttempts
      (ResilientServiceClient.make_request_with_retry
        ResilientServiceClient.osBadRequest 2 (CircuitBreaker.init 5 60) 0 9).2.2 = 3 ∧
    ResilientServiceClient.countSleeps
      (ResilientServiceClient.make_request_with_retry
        ResilientServiceClient.osBadRequest 2 (CircuitBreaker.init 5 60) 0 9).2.2 = 2 := by
  refine ⟨?_, ?_, ?_⟩ <;> rfl

/--
C6 amended. _make_request_with_retry draws no distinction between
failure classes: whenever the breaker admits the call and every attempt
raises (whatever the exception, retryable or not), the error is retried
through the full budget - max_retries + 1 attempts with exponential
backoff sleeps of 2^attempt between them - and the exhausted failure is
reported to the circuit breaker via record_failure and then propagated.
-/
theorem C6_all_failures_retried_and_counted {ε : Type} (α : Type)
    (err : Nat → ε) (max_retries : Nat) (cb : CircuitBreaker)
    (tNow tFail : Rat) (hallow : (cb.can_execute tNow).1 = true) :
    ResilientServiceClient.make_request_with_retry (α := α)
        (fun j => .error (err j)) max_retries cb tNow tFail =
      (.error (.httpError (err max_retries)),
       ((cb.can_execute tNow).2).record_failure tFail,
       .check :: ResilientServiceClient.failTrace 0 max_retries) ∧
    ResilientServiceClient.countAttempts
      (.check :: ResilientServiceClient.failTrace 0 max_retries) = max_retries + 1 ∧
    ResilientServiceClient.countSleeps
      (.check :: ResilientServiceClient.failTrace 0 max_retries) = max_retries := by
  refine ⟨?_, ?_, ?_⟩
  · unfold ResilientServiceClient.make_request_with_retry
    dsimp only
    rw [if_pos (by rw [hallow])]
    rw [ResilientServiceClient.attemptLoop_all_fail err tFail
      (cb.can_execute tNow).2 max_retries 0]
    simp [Except.mapError]
  · simp only [ResilientServiceClient.countAttempts, List.countP_cons]
    have := ResilientServiceClient.failTrace_attempts 0 max_retries
    simp only [ResilientServiceClient.countAttempts] at this
    rw [this]
    simp
  · simp only [ResilientServiceClient.countSleeps, List.countP_cons]
    have := ResilientServiceClient.failTrace_sleeps 0 max_retries
    simp only [ResilientServiceClient.countSleeps] at this
    rw [this]
    simp

/--
Witness for C6 amended at the 400-Bad-Request oracle, max_retries 2,
fresh breaker: full-budget retry, exhausted failure recorded.
-/
theorem C6_all_failures_retried_and_counted_witness :
    ((CircuitBreaker.init 5 60).can_execute 0).1 = true ∧
    ResilientServiceClient.make_request_with_retry (α := Unit)
        (fun _ => .error (400 : Nat)) 2 (CircuitBreaker.init 5 60) 0 9 =
      (.error (.httpError 400),
       (((CircuitBreaker.init 5 60).can_execute 0).2).record_failure 9,
       .check :: ResilientServiceClient.failTrace 0 2) := by
  have hallow : ((CircuitBreaker.init 5 60).can_execute 0).1 = true := rfl
  exact ⟨hallow,
    (C6_all_failures_retried_and_counted Unit (fun _ => (400 : Nat)) 2
      (CircuitBreaker.init 5 60) 0 9 hallow).1⟩

/-
  Rate limiters, from gateway-bff/app/middleware/rate_limiter.py.

  Both are modelled per key: the state is that key's recorded
  timestamps.  MemoryRateLimiter keeps a deque of float timestamps
  (rationals here) and pops stale ones from the left.
  RedisRateLimiter keeps a sorted set whose member for a request at
  integer second `now` is the string str(now) with score `now`; since
  the member is determined by the score, the set is modelled as a list
  of distinct integers, and ZADD of an existing member changes nothing.
-/

namespace MemoryRateLimiter

-- is_allowed(key, limit, window) for one key; `requests` is
-- self.requests[key], `now` is time.time().
def is_allowed (requests : List Rat) (limit : Nat) (window : Rat)
    (now : Rat) : Bool × List Rat :=
  let window_start := now - window
  let requests := requests.dropWhile (fun t => decide (t < window_start))
  if limit ≤ requests.length then
    (false, requests)
  else
    (true, requests ++ [now])

-- A sequence of admission checks at the given times; returns how many
-- were admitted and the final per-key state.
def run (limit : Nat) (window : Rat) :
    List Rat → List Rat → Nat × List Rat
  | st, [] => (0, st)
  | st, t :: ts =>
    let step := is_allowed st limit window t
    let rest := run limit window step.2 ts
    ((if step.1 then 1 else 0) + rest.1, rest.2)

end MemoryRateLimiter

namespace RedisRateLimiter

-- ZREMRANGEBYSCORE key lo hi: drop members with score in [lo, hi].
def zremrangebyscore (z : List Int) (lo hi : Int) : List Int :=
  z.filter (fun s => !(decide (lo ≤ s) && decide (s ≤ hi)))

-- ZADD key {str(now): now}: the member is the rendered score, so
-- adding an already-present timestamp only rewrites the same member.
def zadd (z : List Int) (m : Int) : List Int :=
  if m ∈ z then z else z ++ [m]

-- is_allowed(key, limit, window) for one key (fault-free path);
-- `now` is int(time.time()).
def is_allowed (z : List Int) (limit : Nat) (window : Int)
    (now : Int) : Bool × List Int :=
  let window_start := now - window
  let z := zremrangebyscore z 0 window_start
  if limit ≤ z.length then
    (false, z)
  else
    (true, zadd z now)

def run (limit : Nat) (window : Int) :
    List Int → List Int → Nat × List Int
  | z, [] => (0, z)
  | z, t :: ts =>
    let step := is_allowed z limit window t
    let rest := run limit window step.2 ts
    ((if step.1 then 1 else 0) + rest.1, rest.2)

-- The outcome of each Redis command in one is_allowed call, `.error`
-- meaning the await raised (backend unreachable, network error, ...).
structure RedisOps where
  conn : Except Unit Unit     -- get_redis() / aioredis.from_url
  zrem : Except Unit Unit     -- redis.zremrangebyscore
  zcard : Except Unit Nat     -- redis.zcard
  zadd : Except Unit Unit     -- redis.zadd
  expire : Except Unit Unit   -- redis.expire

-- is_allowed with the try/except wrapper: any raise from a step is
-- caught and the request is allowed.
def is_allowed_with_faults (ops : RedisOps) (limit : Nat) : Bool :=
  let r : Except Unit Bool := do
    ops.conn
    ops.zrem
    let c ← ops.zcard
    if limit ≤ c then
      pure false
    else do
      ops.zadd
      ops.expire
      pure true
  match r with
  | .error _ => true          -- except: log, return True (allow on error)
  | .ok b => b

end RedisRateLimiter

theorem dropWhile_of_all_false {α : Type} (p : α → Bool) (l : List α)
    (h : ∀ x ∈ l, p x = false) : l.dropWhile p = l := by
  induction l with
  | nil => rfl
  | cons x xs ih =>
      rw [List.dropWhile_cons]
      rw [h x (List.mem_cons_self x xs)]
      simp

theorem dropWhile_of_all_true {α : Type} (p : α → Bool) (l : List α)
    (h : ∀ x ∈ l, p x = true) : l.dropWhile p = [] := by
  induction l with
  | nil => rfl
  | cons x xs ih =>
      rw [List.dropWhile_cons]
      rw [h x (List.mem_cons_self x xs)]
      simp only [if_true]
      exact ih (fun y hy => h y (List.mem_cons_of_mem x hy))

theorem MemoryRateLimiter.run_count (limit : Nat) (window : Rat)
    (st ts : List Rat)
    (hst : ∀ s ∈ st, ∀ t ∈ ts, ¬ (s < t - window))
    (hts : ∀ a ∈ ts, ∀ b ∈ ts, ¬ (a < b - window)) :
    (MemoryRateLimiter.run limit window st ts).1 =
      min ts.length (limit - st.length) := by
  induction ts generalizing st with
  | nil => simp [MemoryRateLimiter.run]
  | cons t ts ih =>
      have hdrop : st.dropWhile (fun s => decide (s < t - window)) = st := by
        apply dropWhile_of_all_false
        intro s hs
        simpa using hst s hs t (List.mem_cons_self t ts)
      rw [MemoryRateLimiter.run, MemoryRateLimiter.is_allowed]
      simp only [hdrop]
      by_cases hlim : limit ≤ st.length
      · rw [if_pos hlim]
        simp only [if_neg (Bool.false_ne_true)]
        rw [ih st
          (fun s hs u hu => hst s hs u (List.mem_cons_of_mem t hu))
          (fun a ha b hb =>
            hts a (List.mem_cons_of_mem t ha) b (List.mem_cons_of_mem t hb))]
        simp only [List.length_cons]
        omega
      · rw [if_neg hlim]
        simp only [if_pos rfl]
        rw [ih (st ++ [t]) ?_ ?_]
        · simp only [List.length_append, List.length_cons, List.length_nil,
            if_true]
          omega
        · intro s hs u hu
          rcases List.mem_append.mp hs with hs' | hs'
          · exact hst s hs' u (List.mem_cons_of_mem t hu)
          · have : s = t := by simpa using hs'
            subst this
            exact hts s (List.mem_cons_self s ts) u (List.mem_cons_of_mem s hu)
        · intro a ha b hb
          exact hts a (List.mem_cons_of_mem t ha) b (List.mem_cons_of_mem t hb)

/--
C8 amended. The in-memory backend implements sliding-window admission
for a fixed key: starting from an empty window, a burst of requests
whose timestamps all lie within `W` of one another admits exactly
`min(k, N)` of its `k` requests (so exactly `N` are admitted within the
window and request `N + 1` is rejected); a check finding `N` still-fresh
timestamps rejects and records nothing; and once every recorded
timestamp is older than `now - W` the window empties and admission
resumes.  The Redis backend does NOT share these semantics: its
sorted-set member is the second-granularity timestamp string itself, so
requests in the same second overwrite one member and more than `N` can
be admitted (see the counterexample).
-/
theorem C8_memory_sliding_window (N : Nat) (W : Rat) (ts st : List Rat)
    (now : Rat) :
    ((∀ a ∈ ts, ∀ b ∈ ts, ¬ (a < b - W)) →
      (MemoryRateLimiter.run N W [] ts).1 = min ts.length N) ∧
    (st.length = N → (∀ s ∈ st, ¬ (s < now - W)) →
      MemoryRateLimiter.is_allowed st N W now = (false, st)) ∧
    ((∀ s ∈ st, s < now - W) → 1 ≤ N →
      MemoryRateLimiter.is_allowed st N W now = (true, [now])) := by
  refine ⟨?_, ?_, ?_⟩
  · intro hts
    rw [MemoryRateLimiter.run_count N W [] ts (by simp) hts]
    simp
  · intro hfull hfresh
    have hdrop : st.dropWhile (fun s => decide (s < now - W)) = st := by
      apply dropWhile_of_all_false
      intro s hs
      simpa using hfresh s hs
    rw [MemoryRateLimiter.is_allowed]
    simp only [hdrop]
    rw [if_pos (by rw [hfull])]
  · intro hstale hN
    have hdrop : st.dropWhile (fun s => decide (s < now - W)) = [] := by
      apply dropWhile_of_all_true
      intro s hs
      simpa using hstale s hs
    rw [MemoryRateLimiter.is_allowed]
    simp only [hdrop]
    rw [if_neg (by simp only [List.length_nil]; omega)]
    simp

/--
Witness for C8 amended at N = 2, W = 10: the burst [0, 1, 2] admits
exactly 2 of its 3 requests; a full fresh window [0, 1] rejects at time
2; a fully stale window [0, 1] admits again at time 20.
-/
theorem C8_memory_sliding_window_witness :
    (MemoryRateLimiter.run 2 10 [] [0, 1, 2]).1 = min 3 2 ∧
    MemoryRateLimiter.is_allowed [0, 1] 2 10 2 = (false, [0, 1]) ∧
    MemoryRateLimiter.is_allowed [0, 1] 2 10 20 = (true, [20]) := by
  have h1 := (C8_memory_sliding_window 2 10 [0, 1, 2] [] 0).1
  have h2 := (C8_memory_sliding_window 2 10 [] [0, 1] 2).2.1
  have h3 := (C8_memory_sliding_window 2 10 [] [0, 1] 20).2.2
  have hp : ∀ a ∈ ([0, 1, 2] : List Rat), ∀ b ∈ ([0, 1, 2] : List Rat),
      ¬ (a < b - 10) := by
    intro a ha b hb
    fin_cases ha <;> fin_cases hb <;> norm_num
  have hfresh : ∀ s ∈ ([0, 1] : List Rat), ¬ (s < 2 - 10) := by
    intro s hs
    fin_cases hs <;> norm_num
  have hstale : ∀ s ∈ ([0, 1] : List Rat), s < 20 - 10 := by
    intro s hs
    fin_cases hs <;> norm_num
  refine ⟨?_, h2 rfl hfresh, h3 hstale (by norm_num)⟩
  rw [h1 hp]
  norm_num

/--
C8 counterexample. The claim says both backends implement the same
admission semantics, with exactly N requests admitted per sliding
window and request N+1 rejected.  Concretely, with limit N = 2 and
window W = 10 seconds, three requests arriving in the same second
(int(time.time()) = 100 for all three): the Redis backend admits all
3 - each ZADD rewrites the single member "100", so ZCARD never exceeds
1 - while the in-memory backend admits exactly 2 and rejects the third.
The two backends disagree on the same input, and Redis admits request
N + 1 = 3 inside one window.
-/
theorem C8_counterexample_same_second_overcount :
    (RedisRateLimiter.run 2 10 [] [100, 100, 100]).1 = 3 ∧
    (MemoryRateLimiter.run 2 10 [] [100, 100, 100]).1 = 2 := by
  constructor
  · rfl
  · norm_num [MemoryRateLimiter.run, MemoryRateLimiter.is_allowed]

/--
C9. RedisRateLimiter.is_allowed is fail-open: if the connection cannot
be obtained, or ZREMRANGEBYSCORE, ZCARD, or (on the admit path) ZADD or
EXPIRE raises, the exception is caught and the request is allowed
(True).  When every step succeeds the answer is the sliding-window
decision: admitted exactly when the current count is below the limit.
-/
theorem C9_redis_fail_open (ops : RedisRateLimiter.RedisOps) (limit : Nat) :
    (ops.conn = .error () →
      RedisRateLimiter.is_allowed_with_faults ops limit = true) ∧
    (ops.conn = .ok () → ops.zrem = .error () →
      RedisRateLimiter.is_allowed_with_faults ops limit = true) ∧
    (ops.conn = .ok () → ops.zrem = .ok () → ops.zcard = .error () →
      RedisRateLimiter.is_allowed_with_faults ops limit = true) ∧
    (∀ c : Nat, ops.conn = .ok () → ops.zrem = .ok () → ops.zcard = .ok c →
      c < limit → ops.zadd = .error () →
      RedisRateLimiter.is_allowed_with_faults ops limit = true) ∧
    (∀ c : Nat, ops.conn = .ok () → ops.zrem = .ok () → ops.zcard = .ok c →
      c < limit → ops.zadd = .ok () → ops.expire = .error () →
      RedisRateLimiter.is_allowed_with_faults ops limit = true) ∧
    (∀ c : Nat, ops.conn = .ok () → ops.zrem = .ok () → ops.zcard = .ok c →
      ops.zadd = .ok () → ops.expire = .ok () →
      RedisRateLimiter.is_allowed_with_faults ops limit = decide (c < limit)) := by
  obtain ⟨conn, zrem, zcard, zaddR, expireR⟩ := ops
  refine ⟨?_, ?_, ?_, ?_, ?_, ?_⟩
  · intro h
    subst h
    rfl
  · intro h1 h2
    subst h1
    subst h2
    rfl
  · intro h1 h2 h3
    subst h1
    subst h2
    subst h3
    rfl
  · intro c h1 h2 h3 hc h4
    subst h1
    subst h2
    subst h3
    subst h4
    simp only [RedisRateLimiter.is_allowed_with_faults, bind, Except.bind]
    rw [if_neg (by omega)]
  · intro c h1 h2 h3 hc h4 h5
    subst h1
    subst h2
    subst h3
    subst h4
    subst h5
    simp only [RedisRateLimiter.is_allowed_with_faults, bind, Except.bind]
    rw [if_neg (by omega)]
  · intro c h1 h2 h3 h4 h5
    subst h1
    subst h2
    subst h3
    subst h4
    subst h5
    simp only [RedisRateLimiter.is_allowed_with_faults, bind, Except.bind]
    by_cases hc : limit ≤ c
    · rw [if_pos hc]
      rw [decide_eq_false (Nat.not_lt.mpr hc)]
      rfl
    · rw [if_neg hc]
      rw [decide_eq_true (Nat.lt_of_not_le hc)]
      rfl

/--
Witness for C9: with ZCARD raising (backend unreachable mid-check) the
request is allowed; with all steps succeeding and count 5 at limit 3 it
is rejected.
-/
theorem C9_redis_fail_open_witness :
    RedisRateLimiter.is_allowed_with_faults
      ⟨.ok (), .ok (), .error (), .ok (), .ok ()⟩ 3 = true ∧
    RedisRateLimiter.is_allowed_with_faults
      ⟨.ok (), .ok (), .ok 5, .ok (), .ok ()⟩ 3 = decide (5 < 3) := by
  constructor
  · exact (C9_redis_fail_open ⟨.ok (), .ok (), .error (), .ok (), .ok ()⟩ 3).2.2.1
      rfl rfl rfl
  · exact (C9_redis_fail_open ⟨.ok (), .ok (), .ok 5, .ok (), .ok ()⟩ 3).2.2.2.2.2
      5 rfl rfl rfl rfl rfl

/-
  IdempotencyManager, from claim-svc/app/idempotency/dynamodb.py, and
  ClaimService.create_claim, from claim-svc/app/routers/claims.py.

  The stored idempotency item is modelled by the one attribute
  get_response reads: the "ResponseData" string (absent = the item is
  malformed and item["ResponseData"] raises KeyError).  json.loads is
  the external collaborator `dec` (none = json.JSONDecodeError), and
  the sha256-based content hash of the canonicalized body is the
  external collaborator `hash`.
-/

structure IdemItem where
  responseData : Option String
deriving DecidableEq, Repr

-- Python truthiness of `cached_response` (None or a dict).
def pyTruthyOpt (c : Option PyDict) : Bool :=
  match c with
  | none => false
  | some d => pyTruthyDict d

namespace IdempotencyManager

-- generate_key(self, idempotency_key, request_data)
def generate_key (hash : PyDict → String) (idempotency_key : String)
    (request_data : PyDict) : String :=
  "IDEM#" ++ idempotency_key ++ "#" ++ hash request_data

-- get_response(self, idempotency_key, request_data): `g` is the
-- outcome of dynamodb.get_item at that key (.error = ClientError
-- raised, .ok none = no "Item" in the response).  ClientError,
-- KeyError and JSONDecodeError are all caught and become None.
def get_response (dec : String → Option PyDict)
    (g : Except Unit (Option IdemItem)) : Option PyDict :=
  match g with
  | .error _ => none
  | .ok none => none
  | .ok (some item) =>
    match item.responseData with
    | none => none               -- KeyError on item["ResponseData"]
    | some s => dec s            -- json.loads; none is caught -> None

-- get_item against a table keyed by dedup key, when the store does not
-- fault.
def getItemFrom (table : List (String × IdemItem)) (key : String) :
    Except Unit (Option IdemItem) :=
  .ok (table.lookup key)

-- What dynamodb.put_item with ConditionExpression
-- "attribute_not_exists(PK)" reports back.
inductive PutClientRes where
  | ok                -- insert succeeded
  | condCheckFailed   -- ConditionalCheckFailedException
  | otherClientError  -- any other ClientError
deriving DecidableEq, Repr

-- put_if_absent(self, ...): True on success, False exactly on the
-- conditional-check failure, re-raise (as RuntimeError) otherwise.
def put_if_absent (res : PutClientRes) : Except Unit Bool :=
  match res with
  | .ok => .ok true
  | .condCheckFailed => .ok false
  | .otherClientError => .error ()

-- The store's conditional-write semantics: the condition
-- attribute_not_exists(PK) fails exactly when the key is present at
-- write time.
def conditionalPutRes (table : List (String × IdemItem)) (key : String) :
    PutClientRes :=
  if (table.lookup key).isSome then .condCheckFailed else .ok

-- check_and_store(self, ...): g1/g2 are the get_item outcomes of the
-- first and the re-fetch lookups, pres the conditional-put outcome.
def check_and_store (dec : String → Option PyDict)
    (g1 : Except Unit (Option IdemItem)) (pres : PutClientRes)
    (g2 : Except Unit (Option IdemItem)) :
    Except Unit (Bool × Option PyDict) :=
  let cached := get_response dec g1
  if pyTruthyOpt cached then
    .ok (true, cached)
  else
    match put_if_absent pres with
    | .error e => .error e
    | .ok true => .ok (false, none)
    | .ok false => .ok (true, get_response dec g2)

end IdempotencyManager

namespace ClaimService

structure CreateResult where
  resp : PyDict           -- the response returned to the caller
  repoCalled : Bool       -- whether repository.create_claim executed
  putResult : Option Bool -- result of the trailing put_if_absent, if reached
deriving DecidableEq, Repr

-- create_claim(self, claim_data, customer_id): `hasKey` is whether
-- claim_data.idempotency_key is set; `g1` the get_item outcome of the
-- initial cached-response lookup; `newClaim` the claim dict produced
-- by repository.create_claim; `pubRes` the bool returned by
-- event_publisher.publish_claim_created (the code discards it); `pres`
-- the conditional-put outcome at the time of the trailing
-- put_if_absent (whose Bool result the code also discards; only a
-- RuntimeError from it propagates).
def create_claim (dec : String → Option PyDict) (hasKey : Bool)
    (g1 : Except Unit (Option IdemItem)) (newClaim : PyDict)
    (pubRes : Bool) (pres : IdempotencyManager.PutClientRes) :
    Except Unit CreateResult :=
  if hasKey then
    let proceed : Except Unit CreateResult :=
      let claim := newClaim          -- repository.create_claim(claim_data)
      let _ := pubRes                -- publish_claim_created result unused
      match IdempotencyManager.put_if_absent pres with
      | .error e => .error e
      | .ok stored =>
          .ok { resp := claim, repoCalled := true, putResult := some stored }
    match IdempotencyManager.get_response dec g1 with
    | some d =>
        if pyTruthyDict d then
          .ok { resp := d, repoCalled := false, putResult := none }
        else
          proceed
    | none => proceed
  else
    let claim := newClaim
    let _ := pubRes
    .ok { resp := claim, repoCalled := true, putResult := none }

end ClaimService

/--
C10. IdempotencyManager.get_response is total over the modelled store
behaviors and never raises: a ClientError from get_item, a response
with no "Item", an item missing the "ResponseData" attribute
(KeyError), and a snapshot that fails json.loads all yield None; only
a present, well-formed, parseable snapshot yields it.  And when it
yields None, ClaimService.create_claim treats the request as new and
re-executes the domain mutation even though a record for the key may
exist.
-/
theorem C10_get_response_never_raises (dec : String → Option PyDict)
    (g : Except Unit (Option IdemItem)) :
    (g = .error () → IdempotencyManager.get_response dec g = none) ∧
    (g = .ok none → IdempotencyManager.get_response dec g = none) ∧
    (∀ item, g = .ok (some item) → item.responseData = none →
      IdempotencyManager.get_response dec g = none) ∧
    (∀ item s, g = .ok (some item) → item.responseData = some s →
      dec s = none → IdempotencyManager.get_response dec g = none) ∧
    (∀ item s r, g = .ok (some item) → item.responseData = some s →
      dec s = some r → IdempotencyManager.get_response dec g = some r) ∧
    (∀ newClaim pubRes pres stored,
      IdempotencyManager.put_if_absent pres = .ok stored →
      IdempotencyManager.get_response dec g = none →
      ClaimService.create_claim dec true g newClaim pubRes pres =
        .ok { resp := newClaim, repoCalled := true, putResult := some stored }) := by
  refine ⟨?_, ?_, ?_, ?_, ?_, ?_⟩
  · intro h
    subst h
    rfl
  · intro h
    subst h
    rfl
  · intro item h hr
    subst h
    simp [IdempotencyManager.get_response, hr]
  · intro item s h hr hd
    subst h
    simp [IdempotencyManager.get_response, hr, hd]
  · intro item s r h hr hd
    subst h
    simp [IdempotencyManager.get_response, hr, hd]
  · intro newClaim pubRes pres stored hput hnone
    rw [ClaimService.create_claim, if_pos rfl]
    rw [hnone]
    simp only
    rw [hput]

-- json.loads as seen in the witnesses: parses the winner's snapshot
-- string, fails on anything else.
def decStub : String → Option PyDict :=
  fun s => if s = "resp" then some [("claim_id", "c1")] else none

/--
Witness for C10: a snapshot string that fails to parse yields None, and
the handler then re-executes the mutation; a parseable snapshot is
returned.
-/
theorem C10_get_response_never_raises_witness :
    IdempotencyManager.get_response decStub (.ok (some ⟨some "bad"⟩)) = none ∧
    ClaimService.create_claim decStub true (.ok (some ⟨some "bad"⟩))
        [("claim_id", "c2")] true .ok =
      .ok { resp := [("claim_id", "c2")], repoCalled := true,
            putResult := some true } ∧
    IdempotencyManager.get_response decStub (.ok (some ⟨some "resp"⟩)) =
      some [("claim_id", "c1")] := by
  have h := C10_get_response_never_raises decStub (.ok (some ⟨some "bad"⟩))
  have hnone : IdempotencyManager.get_response decStub (.ok (some ⟨some "bad"⟩)) = none :=
    h.2.2.2.1 ⟨some "bad"⟩ "bad" rfl rfl rfl
  refine ⟨hnone, ?_, ?_⟩
  · exact h.2.2.2.2.2 [("claim_id", "c2")] true .ok true rfl hnone
  · exact (C10_get_response_never_raises decStub
      (.ok (some ⟨some "resp"⟩))).2.2.2.2.1 ⟨some "resp"⟩ "resp"
      [("claim_id", "c1")] rfl rfl rfl

-- The content hash as seen in the witnesses: constant "h1".
def hashStub : PyDict → String := fun _ => "h1"

/--
C3. For a second create-claim request carrying the same idempotency
token and identical body as a completed first request - so
generate_key yields the same dedup key - whose stored, unexpired
record's snapshot parses to a (nonempty, hence truthy) dict `r`:
create_claim returns `r` verbatim and does not call
repository.create_claim (no second claim record) nor put_if_absent.
-/
theorem C3_duplicate_returns_cached_snapshot (dec : String → Option PyDict)
    (hash : PyDict → String) (ik : String) (body : PyDict)
    (table : List (String × IdemItem)) (item : IdemItem) (s : String)
    (r : PyDict)
    (hlook : table.lookup (IdempotencyManager.generate_key hash ik body) =
      some item)
    (hs : item.responseData = some s) (hr : dec s = some r)
    (htr : pyTruthyDict r = true) (newClaim : PyDict) (pubRes : Bool)
    (pres : IdempotencyManager.PutClientRes) :
    ClaimService.create_claim dec true
        (IdempotencyManager.getItemFrom table
          (IdempotencyManager.generate_key hash ik body))
        newClaim pubRes pres =
      .ok { resp := r, repoCalled := false, putResult := none } := by
  rw [ClaimService.create_claim, if_pos rfl]
  rw [show IdempotencyManager.get_response dec
      (IdempotencyManager.getItemFrom table
        (IdempotencyManager.generate_key hash ik body)) = some r by
    simp [IdempotencyManager.getItemFrom, IdempotencyManager.get_response,
      hlook, hs, hr]]
  simp only
  rw [htr]
  simp

/--
Witness for C3: token "tok-1", body [("amount","2500")], the snapshot
stored under the derived key parses to the claim dict, which is
returned with the repository untouched.
-/
theorem C3_duplicate_returns_cached_snapshot_witness :
    ClaimService.create_claim decStub true
        (IdempotencyManager.getItemFrom
          [(IdempotencyManager.generate_key hashStub "tok-1"
              [("amount", "2500")], ⟨some "resp"⟩)]
          (IdempotencyManager.generate_key hashStub "tok-1"
            [("amount", "2500")]))
        [("claim_id", "c9")] true .ok =
      .ok { resp := [("claim_id", "c1")], repoCalled := false,
            putResult := none } := by
  apply C3_duplicate_returns_cached_snapshot decStub hashStub "tok-1"
    [("amount", "2500")] _ ⟨some "resp"⟩ "resp" [("claim_id", "c1")]
  · simp [List.lookup]
  · rfl
  · rfl
  · rfl

-- json.loads for the race counterexample: parses the winner's stored
-- snapshot string "w".
def decWinner : String → Option PyDict :=
  fun s => if s = "w" then some [("claim_id", "winner")] else none

-- The idempotency table after the winner's conditional insert.
def winnerTable : List (String × IdemItem) :=
  [("IDEM#tok-1#h1", ⟨some "w"⟩)]

/--
C4 counterexample. The claim says that when put_if_absent loses the
conditional insert (returns False) the claim-creation handler returns
the winner's stored response.  Concretely: the loser's initial lookup
sees the key absent, it executes the mutation producing its own claim
dict [("claim_id","loser")], and by put time the winner's record
(snapshot parsing to [("claim_id","winner")]) occupies the key, so the
conditional insert fails.  create_claim nevertheless returns the
loser's own dict - it ignores put_if_absent's False and never
re-fetches - even though the winner's cached response is sitting in
the store and is different.
-/
theorem C4_counterexample_loser_keeps_own_response :
    ClaimService.create_claim decWinner true
        (IdempotencyManager.getItemFrom [] "IDEM#tok-1#h1")
        [("claim_id", "loser")] true
        (IdempotencyManager.conditionalPutRes winnerTable "IDEM#tok-1#h1") =
      .ok { resp := [("claim_id", "loser")], repoCalled := true,
            putResult := some false } ∧
    IdempotencyManager.get_response decWinner
        (IdempotencyManager.getItemFrom winnerTable "IDEM#tok-1#h1") =
      some [("claim_id", "winner")] ∧
    ([("claim_id", "loser")] : PyDict) ≠ [("claim_id", "winner")] := by
  refine ⟨rfl, rfl, by decide⟩

/--
C4 amended. IdempotencyManager.check_and_store does behave as the
claim describes: whenever its first lookup finds nothing truthy and
put_if_absent returns False (the conditional insert lost), it
re-fetches and returns the stored response.  But the claim-creation
handler does not use check_and_store: create_claim calls put_if_absent
directly, discards its False result, and returns its own freshly
created claim instead of the winner's cached response.
-/
theorem C4_check_and_store_refetches_but_handler_ignores
    (dec : String → Option PyDict) (g1 g2 : Except Unit (Option IdemItem))
    (newClaim : PyDict) (pubRes : Bool)
    (hmiss : pyTruthyOpt (IdempotencyManager.get_response dec g1) = false) :
    IdempotencyManager.check_and_store dec g1 .condCheckFailed g2 =
      .ok (true, IdempotencyManager.get_response dec g2) ∧
    ClaimService.create_claim dec true g1 newClaim pubRes .condCheckFailed =
      .ok { resp := newClaim, repoCalled := true, putResult := some false } := by
  constructor
  · rw [IdempotencyManager.check_and_store]
    simp only [hmiss]
    rfl
  · rw [ClaimService.create_claim, if_pos rfl]
    cases hg : IdempotencyManager.get_response dec g1 with
    | none => rfl
    | some d =>
        rw [hg] at hmiss
        simp only [pyTruthyOpt] at hmiss
        simp only [hmiss]
        rfl

/--
Witness for C4 amended, in the counterexample's race: check_and_store
would have returned the winner's snapshot, while create_claim returned
the loser's own claim.
-/
theorem C4_check_and_store_refetches_but_handler_ignores_witness :
    IdempotencyManager.check_and_store decWinner
        (IdempotencyManager.getItemFrom [] "IDEM#tok-1#h1") .condCheckFailed
        (IdempotencyManager.getItemFrom winnerTable "IDEM#tok-1#h1") =
      .ok (true, IdempotencyManager.get_response decWinner
        (IdempotencyManager.getItemFrom winnerTable "IDEM#tok-1#h1")) ∧
    ClaimService.create_claim decWinner true
        (IdempotencyManager.getItemFrom [] "IDEM#tok-1#h1")
        [("claim_id", "loser")] true .condCheckFailed =
      .ok { resp := [("claim_id", "loser")], repoCalled := true,
            putResult := some false } :=
  C4_check_and_store_refetches_but_handler_ignores decWinner
    (IdempotencyManager.getItemFrom [] "IDEM#tok-1#h1")
    (IdempotencyManager.getItemFrom winnerTable "IDEM#tok-1#h1")
    [("claim_id", "loser")] true rfl

/-
  ClaimEventPublisher, from claim-svc/app/events/publisher.py.

  publish_claim_created / publish_claim_updated share one body shape:
  inside a try/except that returns False on any exception, they store
  the outbox record (published=false), publish to SNS, and on publish
  success mark the record published.  The collaborator outcomes are
  `insertRes` (put_item on the outbox table), `pubRes`
  (EventPublisher.publish_event: returns a bool or raises ValueError /
  RuntimeError) and `markRes` (update_item).  The embedding also emits
  the sequence of store/topic operations actually performed.
-/

inductive OutboxAction where
  | insertUnpublished  -- put_item of the record with published=false
  | publishAttempt     -- publisher.publish_event call
  | markPublished      -- update_item setting published=true
deriving DecidableEq, Repr

namespace ClaimEventPublisher

-- _store_outbox_event: logs the error and re-raises it, so its outcome
-- is the put_item outcome itself.
def store_outbox_event (r : Except Unit Unit) : Except Unit Unit := r

-- _mark_outbox_event_published: an update_item error is caught and only
-- logged as a warning; the method returns normally regardless.
def mark_outbox_event_published (_r : Except Unit Unit) : Unit := ()

def publish_claim_created (insertRes : Except Unit Unit)
    (pubRes : Except Unit Bool) (markRes : Except Unit Unit) :
    Bool × List OutboxAction :=
  match store_outbox_event insertRes with
  | .error _ =>
      -- the raise from _store_outbox_event reaches the outer except:
      -- log and return False; the publish is never attempted
      (false, [.insertUnpublished])
  | .ok _ =>
      match pubRes with
      | .error _ =>
          -- publish_event raised; outer except returns False
          (false, [.insertUnpublished, .publishAttempt])
      | .ok success =>
          if success then
            let _ := mark_outbox_event_published markRes
            (true, [.insertUnpublished, .publishAttempt, .markPublished])
          else
            (false, [.insertUnpublished, .publishAttempt])

end ClaimEventPublisher

/--
C1 counterexample. The claim says an outbox-insert failure is fatal to
the calling operation - the error propagates to the caller rather than
being swallowed.  Concretely, when put_item raises:
publish_claim_created catches the exception and returns the ordinary
value False (no exception escapes), and ClaimService.create_claim -
which discards publish_claim_created's return value - completes
successfully, returning the freshly created claim to its client.
-/
theorem C1_counterexample_insert_error_swallowed :
    ClaimEventPublisher.publish_claim_created (.error ()) (.ok true) (.ok ()) =
      (false, [.insertUnpublished]) ∧
    ClaimService.create_claim decStub false (.ok none) [("claim_id", "c1")]
        (ClaimEventPublisher.publish_claim_created (.error ()) (.ok true)
          (.ok ())).1 .ok =
      .ok { resp := [("claim_id", "c1")], repoCalled := true,
            putResult := none } := by
  exact ⟨rfl, rfl⟩

/--
C1 amended. In every publish_claim_created run the outbox record is
inserted with published=false before any publish attempt (a publish
attempt in the trace implies the insert succeeded and came first), and
if the insert fails no publish is attempted; but the insert failure is
not fatal to the calling operation: publish_claim_created catches it
and returns False instead of raising, and ClaimService.create_claim
ignores that return value entirely, so the caller's operation is
unaffected.
-/
theorem C1_insert_precedes_publish_error_swallowed
    (insertRes : Except Unit Unit) (pubRes : Except Unit Bool)
    (markRes : Except Unit Unit) :
    (OutboxAction.publishAttempt ∈
        (ClaimEventPublisher.publish_claim_created insertRes pubRes markRes).2 →
      insertRes = .ok () ∧
      (ClaimEventPublisher.publish_claim_created insertRes pubRes markRes).2.head? =
        some .insertUnpublished) ∧
    (insertRes = .error () →
      ClaimEventPublisher.publish_claim_created insertRes pubRes markRes =
        (false, [.insertUnpublished])) ∧
    (∀ (dec : String → Option PyDict) (hasKey : Bool)
        (g1 : Except Unit (Option IdemItem)) (newClaim : PyDict)
        (b1 b2 : Bool) (pres : IdempotencyManager.PutClientRes),
      ClaimService.create_claim dec hasKey g1 newClaim b1 pres =
        ClaimService.create_claim dec hasKey g1 newClaim b2 pres) := by
  refine ⟨?_, ?_, ?_⟩
  · intro hmem
    cases insertRes with
    | error e =>
        simp [ClaimEventPublisher.publish_claim_created,
          ClaimEventPublisher.store_outbox_event] at hmem
    | ok u =>
        cases u
        refine ⟨rfl, ?_⟩
        cases pubRes with
        | error e => rfl
        | ok success => cases success <;> rfl
  · intro h
    subst h
    rfl
  · intro dec hasKey g1 newClaim b1 b2 pres
    cases hasKey <;> rfl

/--
Witness for C1 amended: with the insert failing and a publish outcome
ready to succeed, no publish appears in the trace and False is
returned; and create_claim gives the same result whether the publisher
reported True or False.
-/
theorem C1_insert_precedes_publish_error_swallowed_witness :
    ClaimEventPublisher.publish_claim_created (.error ()) (.ok true) (.ok ()) =
      (false, [.insertUnpublished]) ∧
    ClaimService.create_claim decStub true (.ok none) [("claim_id", "c1")]
        true .ok =
      ClaimService.create_claim decStub true (.ok none) [("claim_id", "c1")]
        false .ok := by
  have h := C1_insert_precedes_publish_error_swallowed (.error ())
    (.ok true) (.ok ())
  exact ⟨h.2.1 rfl,
    h.2.2 decStub true (.ok none) [("claim_id", "c1")] true false .ok⟩

/-
  process_outbox_events, from claim-svc/app/events/publisher.py.

  The sweep scans the outbox table with FilterExpression
  "published = :false" and Limit=10 (DynamoDB applies the Limit to the
  items examined, before the filter).  Each selected item is processed
  once: json.loads(eventData) (`dec`), then publish_event (`pub`, which
  may raise or return a bool); any per-item exception is caught and the
  loop continues with the next item.  On publish success the record is
  marked published via update_item (`markOk`; a failing update is
  swallowed, leaving the record unpublished for the next sweep) and the
  processed count is incremented.
-/

structure OutboxItem where
  eventId : String
  eventType : String
  eventData : String
  topicArn : String
  createdAt : Rat
  published : Bool
deriving DecidableEq, Repr

namespace ClaimEventPublisher

def scanUnpublished (table : List OutboxItem) : List OutboxItem :=
  (table.take 10).filter (fun i => i.published == false)

def publishSucceeds (dec : String → Option PyDict)
    (pub : String → PyDict → String → Except Unit Bool)
    (i : OutboxItem) : Bool :=
  match dec i.eventData with
  | none => false                      -- json.loads raised; caught, continue
  | some d =>
      match pub i.eventType d i.topicArn with
      | .ok true => true
      | _ => false                     -- publish raised or returned False

-- The per-item loop: processed count, and the eventIds for which
-- _mark_outbox_event_published was invoked.
def processLoop (dec : String → Option PyDict)
    (pub : String → PyDict → String → Except Unit Bool) :
    List OutboxItem → Nat × List String
  | [] => (0, [])
  | i :: rest =>
      let r := processLoop dec pub rest
      if publishSucceeds dec pub i then
        (r.1 + 1, i.eventId :: r.2)
      else
        r

def process_outbox_events (dec : String → Option PyDict)
    (pub : String → PyDict → String → Except Unit Bool)
    (markOk : String → Bool) (table : List OutboxItem) :
    Nat × List OutboxItem :=
  ((processLoop dec pub (scanUnpublished table)).1,
   table.map (fun i =>
     if i.eventId ∈ (processLoop dec pub (scanUnpublished table)).2 ∧
         markOk i.eventId = true then
       { i with published := true }
     else
       i))

theorem processLoop_ids (dec : String → Option PyDict)
    (pub : String → PyDict → String → Except Unit Bool)
    (l : List OutboxItem) :
    (processLoop dec pub l).2 =
      (l.filter (publishSucceeds dec pub)).map OutboxItem.eventId := by
  induction l with
  | nil => rfl
  | cons i rest ih =>
      cases h : publishSucceeds dec pub i <;>
        simp [processLoop, List.filter_cons, h, ih]

theorem processLoop_count (dec : String → Option PyDict)
    (pub : String → PyDict → String → Except Unit Bool)
    (l : List OutboxItem) :
    (processLoop dec pub l).1 =
      (l.filter (publishSucceeds dec pub)).length := by
  induction l with
  | nil => rfl
  | cons i rest ih =>
      cases h : publishSucceeds dec pub i <;>
        simp [processLoop, List.filter_cons, h, ih]

theorem scanUnpublished_subset (table : List OutboxItem) (i : OutboxItem)
    (h : i ∈ scanUnpublished table) : i ∈ table :=
  List.take_subset 10 table (List.filter_subset' (table.take 10) h)

end ClaimEventPublisher

/--
C7 amended. Every process_outbox_events run selects only records with
published=false (but with no age condition: there is no grace period),
examines at most 10 records, processes each selected record exactly
once with no inline retry (the processed count is the number of
selected records whose publish succeeded, at most 10), sets
published=true for each selected record whose re-publish and
mark-update succeed, and leaves every selected record whose publish
failed unchanged for the next sweep (eventIds assumed unique, as they
are the table's key).
-/
theorem C7_sweep_bounded_marks_successes (dec : String → Option PyDict)
    (pub : String → PyDict → String → Except Unit Bool)
    (markOk : String → Bool) (table : List OutboxItem)
    (hnd : (table.map OutboxItem.eventId).Nodup) :
    (∀ i ∈ ClaimEventPublisher.scanUnpublished table, i.published = false) ∧
    (ClaimEventPublisher.scanUnpublished table).length ≤ 10 ∧
    (ClaimEventPublisher.process_outbox_events dec pub markOk table).1 =
      ((ClaimEventPublisher.scanUnpublished table).filter
        (ClaimEventPublisher.publishSucceeds dec pub)).length ∧
    (ClaimEventPublisher.process_outbox_events dec pub markOk table).1 ≤ 10 ∧
    (∀ i ∈ ClaimEventPublisher.scanUnpublished table,
      ClaimEventPublisher.publishSucceeds dec pub i = true →
      markOk i.eventId = true →
      { i with published := true } ∈
        (ClaimEventPublisher.process_outbox_events dec pub markOk table).2) ∧
    (∀ i ∈ ClaimEventPublisher.scanUnpublished table,
      ClaimEventPublisher.publishSucceeds dec pub i = false →
      i ∈ (ClaimEventPublisher.process_outbox_events dec pub markOk table).2) := by
  have hlen : (ClaimEventPublisher.scanUnpublished table).length ≤ 10 := by
    calc (ClaimEventPublisher.scanUnpublished table).length
        ≤ (table.take 10).length :=
          List.length_filter_le _ _
      _ = min 10 table.length := List.length_take _ _
      _ ≤ 10 := min_le_left _ _
  have hcount : (ClaimEventPublisher.process_outbox_events dec pub markOk table).1 =
      ((ClaimEventPublisher.scanUnpublished table).filter
        (ClaimEventPublisher.publishSucceeds dec pub)).length :=
    ClaimEventPublisher.processLoop_count dec pub _
  refine ⟨?_, hlen, hcount, ?_, ?_, ?_⟩
  · intro i hi
    have := (List.mem_filter.mp hi).2
    simpa using this
  · rw [hcount]
    calc ((ClaimEventPublisher.scanUnpublished table).filter
          (ClaimEventPublisher.publishSucceeds dec pub)).length
        ≤ (ClaimEventPublisher.scanUnpublished table).length :=
          List.length_filter_le _ _
      _ ≤ 10 := hlen
  · intro i hi hsucc hmark
    have hmem : i ∈ table := ClaimEventPublisher.scanUnpublished_subset table i hi
    have hid : i.eventId ∈
        (ClaimEventPublisher.processLoop dec pub
          (ClaimEventPublisher.scanUnpublished table)).2 := by
      rw [ClaimEventPublisher.processLoop_ids]
      exact List.mem_map_of_mem _ (List.mem_filter.mpr ⟨hi, hsucc⟩)
    exact List.mem_map.mpr ⟨i, hmem, by rw [if_pos ⟨hid, hmark⟩]⟩
  · intro i hi hfail
    have hmem : i ∈ table := ClaimEventPublisher.scanUnpublished_subset table i hi
    have hnotid : i.eventId ∉
        (ClaimEventPublisher.processLoop dec pub
          (ClaimEventPublisher.scanUnpublished table)).2 := by
      rw [ClaimEventPublisher.processLoop_ids]
      intro hin
      obtain ⟨j, hj, hje⟩ := List.mem_map.mp hin
      have hjmem : j ∈ ClaimEventPublisher.scanUnpublished table :=
        (List.mem_filter.mp hj).1
      have hjsucc : ClaimEventPublisher.publishSucceeds dec pub j = true :=
        (List.mem_filter.mp hj).2
      have hjt : j ∈ table :=
        ClaimEventPublisher.scanUnpublished_subset table j hjmem
      have : j = i := List.inj_on_of_nodup_map hnd hjt hmem hje
      rw [this] at hjsucc
      rw [hjsucc] at hfail
      exact absurd hfail (by simp)
    exact List.mem_map.mpr ⟨i, hmem, by rw [if_neg (fun hc => hnotid hc.1)]⟩

-- Concrete collaborators for the C7 witnesses: every payload parses,
-- every publish succeeds, every mark-update succeeds.
def decAlways : String → Option PyDict := fun _ => some [("claim", "x")]

def pubAlways : String → PyDict → String → Except Unit Bool :=
  fun _ _ _ => .ok true

-- An outbox record created at timestamp 100 - the same instant the
-- sweep runs, so its age is 0, younger than any positive grace period.
def freshItem : OutboxItem :=
  { eventId := "e1", eventType := "ClaimCreated", eventData := "d"
    topicArn := "arn", createdAt := 100, published := false }

/--
Witness for C7 amended at a one-record table: the fresh unpublished
record is selected, its publish succeeds, and it appears marked
published in the resulting table.
-/
theorem C7_sweep_bounded_marks_successes_witness :
    ({ freshItem with published := true } : OutboxItem) ∈
      (ClaimEventPublisher.process_outbox_events decAlways pubAlways
        (fun _ => true) [freshItem]).2 := by
  apply ((C7_sweep_bounded_marks_successes decAlways pubAlways
    (fun _ => true) [freshItem] (by simp)).2.2.2.2.1) freshItem
  · show freshItem ∈ ClaimEventPublisher.scanUnpublished [freshItem]
    rw [show ClaimEventPublisher.scanUnpublished [freshItem] = [freshItem]
      from rfl]
    exact List.mem_cons_self freshItem []
  · rfl
  · rfl

/--
C7 counterexample. The claim says the sweep selects only records with
published=false that are older than a short grace period.  There is no
age condition in the code: concretely, a record created at timestamp
100 and swept at that same instant (age 0, younger than any positive
grace period) is selected, published and marked - the selection is
independent of createdAt.
-/
theorem C7_counterexample_no_grace_period :
    ClaimEventPublisher.scanUnpublished [freshItem] = [freshItem] ∧
    ClaimEventPublisher.process_outbox_events decAlways pubAlways
        (fun _ => true) [freshItem] =
      (1, [{ freshItem with published := true }]) := by
  constructor
  · rfl
  · simp [ClaimEventPublisher.process_outbox_events,
      ClaimEventPublisher.processLoop, ClaimEventPublisher.scanUnpublished,
      ClaimEventPublisher.publishSucceeds, decAlways, pubAlways, freshItem]
